import Mathlib

/-!
Verification development for the audio conversion pipeline of the MOC music
player fork (audio_conversion.c).  The pipeline's data model and operations
are embedded shallowly:

* Byte buffers are `List Nat` (each element a byte value `< 256`); multi-byte
  samples are stored little-endian, matching a little-endian host (the code's
  `SFMT_NE` native tag resolves to `SFMT_LE` there, and the `WORDS_BIGENDIAN`
  conditional compilation selects the little-endian branches).
* C `float` values are modelled by `Frac`, an exact (unnormalized) rational:
  every binary32 operation the pipeline performs on the inputs relevant to
  the theorems below is exact (integers below 2^24 divided by powers of two),
  so `Frac` arithmetic coincides with the C float arithmetic there; where an
  operation could round in binary32 (noted at each definition), the model
  computes the exact value instead.
* Machine integers are `Int`/`Nat` with explicit two's-complement
  (`toSigned`/`toUnsigned`) conversions and explicit `fdiv` for arithmetic
  shifts.
* Out-of-bounds accesses and `abort()`/`fatal()` calls are modelled by
  `Option.none`.
-/

/-- Exact rational number with an unnormalized representation
(numerator/denominator, no gcd reduction), used to model C `float` values so
that all computations kernel-reduce.  The denominator is kept positive by
construction at every use site. -/
structure Frac where
  num : Int
  den : Nat
deriving DecidableEq, Repr

/-- Addition of fractions (no normalization). -/
def Frac.add (a b : Frac) : Frac :=
  ⟨a.num * (b.den : Int) + b.num * (a.den : Int), a.den * b.den⟩

/-- Multiplication of fractions (no normalization). -/
def Frac.mul (a b : Frac) : Frac :=
  ⟨a.num * b.num, a.den * b.den⟩

/-- Embed an integer as a fraction. -/
def Frac.ofInt (n : Int) : Frac := ⟨n, 1⟩

/-- Scale a fraction by an integer. -/
def Frac.scale (a : Frac) (c : Int) : Frac := ⟨a.num * c, a.den⟩

/-- `a ≥ c` for an integer bound `c` (denominators are positive). -/
def Frac.geInt (a : Frac) (c : Int) : Bool := decide (c * (a.den : Int) ≤ a.num)

/-- `a ≤ c` for an integer bound `c` (denominators are positive). -/
def Frac.leInt (a : Frac) (c : Int) : Bool := decide (a.num ≤ c * (a.den : Int))

/-- Semantic strict order on fractions (denominators are positive). -/
def Frac.blt (a b : Frac) : Bool :=
  decide (a.num * (b.den : Int) < b.num * (a.den : Int))

/-- Floor of a fraction. -/
def Frac.floor (a : Frac) : Int := Int.fdiv a.num (a.den : Int)

/-- Truncation toward zero, the semantics of a C float-to-integer
conversion (used by the down-mix accumulators). -/
def Frac.trunc (a : Frac) : Int := Int.tdiv a.num (a.den : Int)

/-- Round to nearest, ties to even: the semantics of `lrintf` under the
default rounding mode. -/
def rintF (a : Frac) : Int :=
  let f := a.floor
  let rem2 : Int := 2 * (a.num - f * (a.den : Int))
  if rem2 < (a.den : Int) then f
  else if (a.den : Int) < rem2 then f + 1
  else if Int.emod f 2 = 0 then f else f + 1

/-- Two's-complement interpretation of a `w`-bit unsigned value. -/
def toSigned (w : Nat) (v : Nat) : Int :=
  if v < 2 ^ (w - 1) then (v : Int) else (v : Int) - 2 ^ w

/-- Low `w` bits of an integer, as the unsigned two's-complement pattern. -/
def toUnsigned (w : Nat) (v : Int) : Nat := (Int.emod v (2 ^ w)).toNat

/-- Arithmetic shift right by `n` bits (floor division by `2^n`). -/
def asr (v : Int) (n : Nat) : Int := Int.fdiv v (2 ^ n)

/-- Little-endian value of a byte pair. -/
def le16 (b0 b1 : Nat) : Nat := b0 + 256 * b1

/-- Little-endian value of a byte quadruple. -/
def le32 (b0 b1 b2 b3 : Nat) : Nat :=
  b0 + 256 * b1 + 65536 * b2 + 16777216 * b3

/-- The two little-endian bytes of a 16-bit pattern. -/
def bytes16 (v : Nat) : List Nat := [v % 256, v / 256 % 256]

/-- The four little-endian bytes of a 32-bit pattern. -/
def bytes32 (v : Nat) : List Nat :=
  [v % 256, v / 256 % 256, v / 65536 % 256, v / 16777216 % 256]

/-- The three little-endian bytes of a 24-bit pattern. -/
def bytes24 (v : Nat) : List Nat := [v % 256, v / 256 % 256, v / 65536 % 256]

/-- Modelled from the spec: sample format kinds of the sample-format model
(the `SFMT_*` format bits of `audio.h`, which is not among the provided
sources).  One constructor per format bit; the bit-mask representation is
replaced by this enumeration, which supports every operation the sources
perform (`fmt & SFMT_MASK_FORMAT` comparisons and single-bit tests). -/
inductive SfmtFmt where
  | S8 | U8 | S16 | U16 | S24 | U24 | S24_3 | U24_3 | S32 | U32 | FLOAT
deriving DecidableEq, Repr

/-- Modelled from the spec: endianness tag.  The host is little-endian, so
the native tag `SFMT_NE` is `LE`. -/
inductive SfmtEndian where
  | LE | BE
deriving DecidableEq, Repr

/-- Modelled from the spec: a complete sample-format tag, i.e. the format
bits together with the endianness bits of the `long fmt` word. -/
structure Sfmt where
  fmt : SfmtFmt
  endian : SfmtEndian
deriving DecidableEq, Repr

/-- Modelled from the spec: `sfmt_set_fmt` replaces the format bits and
keeps the endianness bits. -/
def sfmt_set_fmt (s : Sfmt) (f : SfmtFmt) : Sfmt := ⟨f, s.endian⟩

/-- Modelled from the spec: `sfmt_set_endian` replaces the endianness bits
and keeps the format bits. -/
def sfmt_set_endian (s : Sfmt) (e : SfmtEndian) : Sfmt := ⟨s.fmt, e⟩

/-- Modelled from the spec: `sfmt_Bps`, bytes per sample
(8-bit → 1; 16 → 2; 24-packed → 3; 24-padded → 4; 32 → 4; float → 4). -/
def sfmt_Bps : SfmtFmt → Nat
  | .S8 | .U8 => 1
  | .S16 | .U16 => 2
  | .S24_3 | .U24_3 => 3
  | .S24 | .U24 | .S32 | .U32 | .FLOAT => 4

/-- Modelled from the spec: `sfmt_same_bps`, same-bit-width comparison. -/
def sfmt_same_bps (a b : Sfmt) : Bool := sfmt_Bps a.fmt == sfmt_Bps b.fmt

/-- Modelled from the spec: sound parameters `(format, rate, channels)`. -/
structure SoundParams where
  fmt : Sfmt
  rate : Nat
  channels : Nat
deriving DecidableEq, Repr

/-- A sound buffer.  The pipeline reinterprets its working `char *` buffer as
an array of the current format's sample type; a buffer whose current format
is `FLOAT` holds binary32 values (modelled exactly by `Frac`), any other
holds raw bytes.  A stage that reads a buffer at the wrong type dereferences
reinterpreted memory out of bounds and is modelled by `none`. -/
inductive SndBuf where
  | bytes (l : List Nat)
  | floats (l : List Frac)
deriving DecidableEq, Repr

/-- Byte length of a buffer (`sizeof(float) = 4`). -/
def sndLen : SndBuf → Nat
  | .bytes l => l.length
  | .floats l => 4 * l.length

/-- View a buffer as raw bytes. -/
def asBytes : SndBuf → Option (List Nat)
  | .bytes l => some l
  | .floats _ => none

/-- View a buffer as floats. -/
def asFloats : SndBuf → Option (List Frac)
  | .floats l => some l
  | .bytes _ => none

/-! ### Fixed → float converters (`*_to_float`)

Each converter takes the sample count computed by `fixed_to_float` and the
byte buffer; running out of bytes before the count is exhausted is an
out-of-bounds read (`none`).  Divisions are by the format's
`width-max + 1` exactly as written in the source; for the 32-bit formats the
C divisor is `(float)INT32_MAX + 1.0 = 2147483649.0` because converting
`INT32_MAX` to binary32 rounds it to `2^31`. -/

/-- `(((int)*in++) + INT8_MIN) / (float)(INT8_MAX + 1)` per sample. -/
def u8_to_float : Nat → List Nat → Option (List Frac)
  | 0, _ => some []
  | n + 1, b :: rest =>
      (u8_to_float n rest).map (fun r => ⟨(b : Int) + (-128), 128⟩ :: r)
  | _ + 1, [] => none

/-- `*in++ / (float)(INT8_MAX + 1)` per signed sample. -/
def s8_to_float : Nat → List Nat → Option (List Frac)
  | 0, _ => some []
  | n + 1, b :: rest =>
      (s8_to_float n rest).map (fun r => ⟨toSigned 8 b, 128⟩ :: r)
  | _ + 1, [] => none

/-- `((int)*in_16++ + INT16_MIN) / (float)(INT16_MAX + 1)` per sample. -/
def u16_to_float : Nat → List Nat → Option (List Frac)
  | 0, _ => some []
  | n + 1, b0 :: b1 :: rest =>
      (u16_to_float n rest).map
        (fun r => ⟨(le16 b0 b1 : Int) + (-32768), 32768⟩ :: r)
  | _ + 1, _ => none

/-- `*in_16++ / (float)(INT16_MAX + 1)` per signed sample. -/
def s16_to_float : Nat → List Nat → Option (List Frac)
  | 0, _ => some []
  | n + 1, b0 :: b1 :: rest =>
      (s16_to_float n rest).map
        (fun r => ⟨toSigned 16 (le16 b0 b1), 32768⟩ :: r)
  | _ + 1, _ => none

/-- `((float)*in_32++ + (float)S24_MIN) / ((float)S24_MAX + 1.0)` per
sample held in a 32-bit container (`S24_MIN = -8388608`). -/
def u24_to_float : Nat → List Nat → Option (List Frac)
  | 0, _ => some []
  | n + 1, b0 :: b1 :: b2 :: b3 :: rest =>
      (u24_to_float n rest).map
        (fun r => ⟨(le32 b0 b1 b2 b3 : Int) + (-8388608), 8388608⟩ :: r)
  | _ + 1, _ => none

/-- `*in_32++ / ((float)S24_MAX + 1.0)` per signed 24-in-32 sample. -/
def s24_to_float : Nat → List Nat → Option (List Frac)
  | 0, _ => some []
  | n + 1, b0 :: b1 :: b2 :: b3 :: rest =>
      (s24_to_float n rest).map
        (fun r => ⟨toSigned 32 (le32 b0 b1 b2 b3), 8388608⟩ :: r)
  | _ + 1, _ => none

/-- Little-endian branch of `s24_3_to_float`:
`(*(in_8)+(*(in_8+1)<<8)+(*(in_8+2)<<16)) / ((float)S24_MAX + 1.0)` where
`in_8` has type `const int8_t *`, so all three bytes — including the low and
middle ones — are sign-extended before being combined. -/
def s24_3_to_float : Nat → List Nat → Option (List Frac)
  | 0, _ => some []
  | n + 1, b0 :: b1 :: b2 :: rest =>
      (s24_3_to_float n rest).map
        (fun r =>
          ⟨toSigned 8 b0 + 256 * toSigned 8 b1 + 65536 * toSigned 8 b2,
           8388608⟩ :: r)
  | _ + 1, _ => none

/-- Little-endian branch of `u24_3_to_float` (`in_8 : const uint8_t *`). -/
def u24_3_to_float : Nat → List Nat → Option (List Frac)
  | 0, _ => some []
  | n + 1, b0 :: b1 :: b2 :: rest =>
      (u24_3_to_float n rest).map
        (fun r =>
          ⟨(b0 : Int) + 256 * b1 + 65536 * b2 + (-8388608), 8388608⟩ :: r)
  | _ + 1, _ => none

/-- `((float)*in_32++ + (float)INT32_MIN) / ((float)INT32_MAX + 1.0)` per
sample; the divisor is `2147483649` (see section comment).  The conversion
`(float)*in_32` may round in binary32 for values above `2^24`; the model
keeps the exact value. -/
def u32_to_float : Nat → List Nat → Option (List Frac)
  | 0, _ => some []
  | n + 1, b0 :: b1 :: b2 :: b3 :: rest =>
      (u32_to_float n rest).map
        (fun r =>
          ⟨(le32 b0 b1 b2 b3 : Int) + (-2147483648), 2147483649⟩ :: r)
  | _ + 1, _ => none

/-- `*in_32++ / ((float)INT32_MAX + 1.0)` per signed sample (divisor
`2147483649`, exact value kept). -/
def s32_to_float : Nat → List Nat → Option (List Frac)
  | 0, _ => some []
  | n + 1, b0 :: b1 :: b2 :: b3 :: rest =>
      (s32_to_float n rest).map
        (fun r => ⟨toSigned 32 (le32 b0 b1 b2 b3), 2147483649⟩ :: r)
  | _ + 1, _ => none

/-- `fixed_to_float`: convert fixed point samples in format `fmt` (`size`
bytes) to float, returning the converted buffer and its new byte size
(`new_size`).  The `default:` branch and the entry assertion for `FLOAT`
`abort()`. -/
def fixed_to_float (l : List Nat) (size : Nat) (fmt : Sfmt) :
    Option (List Frac × Nat) :=
  match fmt.fmt with
  | .U8 => (u8_to_float size l).map (fun r => (r, 4 * size))
  | .S8 => (s8_to_float size l).map (fun r => (r, 4 * size))
  | .U16 => (u16_to_float (size / 2) l).map (fun r => (r, 4 * size / 2))
  | .S16 => (s16_to_float (size / 2) l).map (fun r => (r, 4 * size / 2))
  | .U24 => (u24_to_float (size / 4) l).map (fun r => (r, 4 * size / 4))
  | .S24 => (s24_to_float (size / 4) l).map (fun r => (r, 4 * size / 4))
  | .S24_3 => (s24_3_to_float (size / 3) l).map (fun r => (r, 4 * size / 3))
  | .U24_3 => (u24_3_to_float (size / 3) l).map (fun r => (r, 4 * size / 3))
  | .U32 => (u32_to_float (size / 4) l).map (fun r => (r, 4 * size / 4))
  | .S32 => (s32_to_float (size / 4) l).map (fun r => (r, 4 * size / 4))
  | .FLOAT => none

/-! ### Float → fixed converters (`float_to_*`)

Each converter scales by the format's full-scale maximum (`INT32_MAX`
converted to binary32 is `2^31`, which is the value the float comparison and
multiplication actually use; `S24_MAX = 8388607` converts exactly), clamps,
rounds with `lrintf` (nearest, ties to even), shifts, and applies the
unsigned offset.  Stores into a narrower integer type keep the low bits
(two's complement), the behaviour of the reference platform. -/

/-- `float_to_u8` body for one sample. -/
def f2u8 (x : Frac) : Nat :=
  let f := x.scale 2147483648
  if f.geInt 2147483648 then 255
  else if f.leInt (-2147483648) then 0
  else toUnsigned 8 (asr (rintF f) 24 + 128)

/-- `float_to_s8` body for one sample. -/
def f2s8 (x : Frac) : Nat :=
  let f := x.scale 2147483648
  if f.geInt 2147483648 then 127
  else if f.leInt (-2147483648) then toUnsigned 8 (-128)
  else toUnsigned 8 (asr (rintF f) 24)

/-- `float_to_u16` body for one sample, as little-endian bytes. -/
def f2u16 (x : Frac) : List Nat :=
  let f := x.scale 2147483648
  if f.geInt 2147483648 then bytes16 65535
  else if f.leInt (-2147483648) then bytes16 0
  else bytes16 (toUnsigned 16 (asr (rintF f) 16 + 32768))

/-- `float_to_s16` body for one sample, as little-endian bytes. -/
def f2s16 (x : Frac) : List Nat :=
  let f := x.scale 2147483648
  if f.geInt 2147483648 then bytes16 (toUnsigned 16 32767)
  else if f.leInt (-2147483648) then bytes16 (toUnsigned 16 (-32768))
  else bytes16 (toUnsigned 16 (asr (rintF f) 16))

/-- `float_to_u24` body for one sample (stored in a 32-bit slot). -/
def f2u24 (x : Frac) : List Nat :=
  let f := x.scale 8388607
  if f.geInt 8388607 then bytes32 16777215
  else if f.leInt (-8388608) then bytes32 0
  else bytes32 (toUnsigned 32 (rintF f + 8388608))

/-- `float_to_s24` body for one sample (stored in a 32-bit slot). -/
def f2s24 (x : Frac) : List Nat :=
  let f := x.scale 8388607
  if f.geInt 8388607 then bytes32 (toUnsigned 32 8388607)
  else if f.leInt (-8388608) then bytes32 (toUnsigned 32 (-8388608))
  else bytes32 (toUnsigned 32 (rintF f))

/-- `float_to_u24_3` body for one sample (three little-endian bytes). -/
def f2u24_3 (x : Frac) : List Nat :=
  let f := x.scale 8388607
  if f.geInt 8388607 then bytes24 16777215
  else if f.leInt (-8388608) then bytes24 0
  else bytes24 (toUnsigned 32 (rintF f + 8388608))

/-- `float_to_s24_3` body for one sample (three little-endian bytes). -/
def f2s24_3 (x : Frac) : List Nat :=
  let f := x.scale 8388607
  if f.geInt 8388607 then bytes24 (toUnsigned 32 8388607)
  else if f.leInt (-8388608) then bytes24 (toUnsigned 32 (-8388608))
  else bytes24 (toUnsigned 32 (rintF f))

/-- `float_to_u32` body for one sample (note: the positive clamp stores
`INT32_MAX`, as written in the source). -/
def f2u32 (x : Frac) : List Nat :=
  let f := x.scale 2147483648
  if f.geInt 2147483648 then bytes32 2147483647
  else if f.leInt (-2147483648) then bytes32 0
  else bytes32 (toUnsigned 32 (rintF f + 2147483648))

/-- `float_to_s32` body for one sample. -/
def f2s32 (x : Frac) : List Nat :=
  let f := x.scale 2147483648
  if f.geInt 2147483648 then bytes32 (toUnsigned 32 2147483647)
  else if f.leInt (-2147483648) then bytes32 (toUnsigned 32 (-2147483648))
  else bytes32 (toUnsigned 32 (rintF f))

/-- Run a per-sample converter over `n` samples (out of floats → OOB). -/
def mapSamples (f : Frac → List Nat) : Nat → List Frac → Option (List Nat)
  | 0, _ => some []
  | n + 1, x :: rest => (mapSamples f n rest).map (fun r => f x ++ r)
  | _ + 1, [] => none

/-- `float_to_fixed`: convert `samples` float samples to fixed point format
`fmt`, returning the new buffer and its byte size.  The `default:` branch
and the entry assertion for `FLOAT` `abort()`. -/
def float_to_fixed (l : List Frac) (samples : Nat) (fmt : Sfmt) :
    Option (List Nat × Nat) :=
  match fmt.fmt with
  | .U8 => (mapSamples (fun x => [f2u8 x]) samples l).map (fun r => (r, samples))
  | .S8 => (mapSamples (fun x => [f2s8 x]) samples l).map (fun r => (r, samples))
  | .U16 => (mapSamples f2u16 samples l).map (fun r => (r, samples * 2))
  | .S16 => (mapSamples f2s16 samples l).map (fun r => (r, samples * 2))
  | .U24 => (mapSamples f2u24 samples l).map (fun r => (r, samples * 4))
  | .S24 => (mapSamples f2s24 samples l).map (fun r => (r, samples * 4))
  | .U24_3 => (mapSamples f2u24_3 samples l).map (fun r => (r, samples * 3))
  | .S24_3 => (mapSamples f2s24_3 samples l).map (fun r => (r, samples * 3))
  | .U32 => (mapSamples f2u32 samples l).map (fun r => (r, samples * 4))
  | .S32 => (mapSamples f2s32 samples l).map (fun r => (r, samples * 4))
  | .FLOAT => none

/-! ### Sign flipper (`change_sign_*`, `change_sign`) -/

/-- XOR byte `pos` of a sample's little-endian byte group with `0x80`
(flipping the group's top bit: `1 << 7` of that byte). -/
def flipAt : Nat → List Nat → List Nat
  | _, [] => []
  | 0, b :: bs => (b ^^^ 128) :: bs
  | p + 1, b :: bs => b :: flipAt p bs

/-- Process `n` samples of `stride` bytes each, flipping byte `pos` of every
sample; requesting a sample beyond the buffer is an out-of-bounds write. -/
def change_sign_blk (stride pos : Nat) : Nat → List Nat → Option (List Nat)
  | 0, l => some l
  | n + 1, l =>
      if stride ≤ l.length then
        match change_sign_blk stride pos n (l.drop stride) with
        | some r => some (flipAt pos (l.take stride) ++ r)
        | none => none
      else none

/-- Toggled encoding written back by `change_sign` (signed ↔ unsigned). -/
def sign_toggle : SfmtFmt → SfmtFmt
  | .S8 => .U8 | .U8 => .S8
  | .S16 => .U16 | .U16 => .S16
  | .S24 => .U24 | .U24 => .S24
  | .S32 => .U32 | .U32 => .S32
  | f => f

/-- `change_sign (buf, size, &fmt)`: flip the sign bit of `size`-implied
many samples and toggle the format tag.  8-bit flips bit 7 of each byte
(`size` samples); 16-bit flips bit 15 (`size/2` samples, i.e. byte 1 of each
little-endian pair); 24-in-32 flips bit 23 (`size/4` samples, byte 2 of each
quadruple); 32-bit flips bit 31 (`size/4` samples, byte 3).  Packed 24-bit
and float reach the `default:` branch and `abort()`.  The byte count `size`
is a caller-supplied argument and may exceed the buffer (then: `none`). -/
def change_sign (b : SndBuf) (size : Nat) (fmt : Sfmt) :
    Option (SndBuf × Sfmt) :=
  match fmt.fmt with
  | .S8 | .U8 => do
      let l ← asBytes b
      let r ← change_sign_blk 1 0 size l
      pure (.bytes r, sfmt_set_fmt fmt (sign_toggle fmt.fmt))
  | .S16 | .U16 => do
      let l ← asBytes b
      let r ← change_sign_blk 2 1 (size / 2) l
      pure (.bytes r, sfmt_set_fmt fmt (sign_toggle fmt.fmt))
  | .S24 | .U24 => do
      let l ← asBytes b
      let r ← change_sign_blk 4 2 (size / 4) l
      pure (.bytes r, sfmt_set_fmt fmt (sign_toggle fmt.fmt))
  | .S32 | .U32 => do
      let l ← asBytes b
      let r ← change_sign_blk 4 3 (size / 4) l
      pure (.bytes r, sfmt_set_fmt fmt (sign_toggle fmt.fmt))
  | _ => none

/-- Formats accepted by `change_sign`. -/
def sign_flippable : SfmtFmt → Bool
  | .S8 | .U8 | .S16 | .U16 | .S24 | .U24 | .S32 | .U32 => true
  | _ => false

/-! ### Endianness swapper (`audio_conv_bswap_*`, `swap_endian`) -/

/-- `audio_conv_bswap_16 (buf, num)`: byte-swap `num` 16-bit samples
(at the byte level, exchange the two bytes of each pair); samples past the
end of the buffer are out-of-bounds. -/
def audio_conv_bswap_16 : Nat → List Nat → Option (List Nat)
  | 0, l => some l
  | n + 1, b0 :: b1 :: rest =>
      (audio_conv_bswap_16 n rest).map (fun r => b1 :: b0 :: r)
  | _ + 1, _ => none

/-- `audio_conv_bswap_24 (buf, num)`: for each `i` multiple of 3 below the
byte count `num`, exchange bytes `i` and `i+2`; if `num` is not a multiple
of 3 the final iteration indexes past the buffer. -/
def audio_conv_bswap_24 (n : Nat) (l : List Nat) : Option (List Nat) :=
  match n, l with
  | 0, l => some l
  | Nat.succ m, b0 :: b1 :: b2 :: rest =>
      match audio_conv_bswap_24 (m - 2) rest with
      | some r => some (b2 :: b1 :: b0 :: r)
      | none => none
  | Nat.succ _, _ => none
termination_by n
decreasing_by omega

/-- `audio_conv_bswap_32 (buf, num)`: byte-swap `num` 32-bit samples
(reverse the four bytes of each quadruple). -/
def audio_conv_bswap_32 : Nat → List Nat → Option (List Nat)
  | 0, l => some l
  | n + 1, b0 :: b1 :: b2 :: b3 :: rest =>
      (audio_conv_bswap_32 n rest).map (fun r => b3 :: b2 :: b1 :: b0 :: r)
  | _ + 1, _ => none

/-- `swap_endian (buf, size, fmt)`: swap endianness of fixed point samples.
Returns immediately (buffer untouched) on any 8-bit or float format; 16-bit
formats swap `size/2` pairs; 24-in-32 and 32-bit formats reverse `size/4`
quadruples; packed 24-bit exchanges the outer bytes of each 3-byte group.
Any other format `abort()`s. -/
def swap_endian (b : SndBuf) (size : Nat) (fmt : Sfmt) : Option SndBuf :=
  if fmt.fmt = .S8 ∨ fmt.fmt = .U8 ∨ fmt.fmt = .FLOAT then some b
  else
    match b with
    | .floats _ => none
    | .bytes l =>
      match fmt.fmt with
      | .S16 | .U16 => (audio_conv_bswap_16 (size / 2) l).map .bytes
      | .S24 | .U24 | .S32 | .U32 =>
          (audio_conv_bswap_32 (size / 4) l).map .bytes
      | .S24_3 | .U24_3 => (audio_conv_bswap_24 size l).map .bytes
      | _ => none

/-- Fixed-point formats `swap_endian` actually byte-swaps. -/
def endian_swappable : SfmtFmt → Bool
  | .S16 | .U16 | .S24 | .U24 | .S32 | .U32 | .S24_3 | .U24_3 => true
  | _ => false

/-- Container size in bytes of a fixed-point format's byte group as seen by
`swap_endian` (2 for 16-bit, 3 for packed 24, 4 for padded 24 and 32). -/
def swap_container : SfmtFmt → Nat
  | .S16 | .U16 => 2
  | .S24_3 | .U24_3 => 3
  | _ => 4

/-! ### Channel remapping (`mono_to_stereo`, `ch6_to_stereo`) -/

/-- `mono_to_stereo` loop: starting at `i = 0` and stepping by `Bps = k`
while `i < size` (`n` is `size - i`), copy the `k` bytes at `i` twice into
the output; a trailing partial sample makes the copy read past the end. -/
def mono_dup (k : Nat) (n : Nat) (l : List Nat) : Option (List Nat) :=
  if n = 0 then some []
  else if 0 < k then
    if k ≤ l.length then
      match mono_dup k (n - k) (l.drop k) with
      | some r => some (l.take k ++ l.take k ++ r)
      | none => none
    else none
  else none
termination_by n
decreasing_by omega

/-- `mono_to_stereo (mono, size, format)`: double the channels, duplicating
each sample into both output slots.  A float-typed buffer duplicates whole
binary32 elements (`Bps = 4` bytes each). -/
def mono_to_stereo (b : SndBuf) (size : Nat) (format : Sfmt) :
    Option SndBuf :=
  match b with
  | .bytes l => (mono_dup (sfmt_Bps format.fmt) size l).map .bytes
  | .floats l => (mono_dup_f size l).map .floats
where
  /-- float-typed variant of the byte-copy loop: each 4-byte `memcpy` moves
  exactly one binary32 element. -/
  mono_dup_f (n : Nat) (l : List Frac) : Option (List Frac) :=
    if n = 0 then some []
    else
      match l with
      | x :: rest =>
        match mono_dup_f (n - 4) rest with
        | some r => some (x :: x :: r)
        | none => none
      | [] => none
  termination_by n
  decreasing_by omega

/-- Down-mix matrix `a[2][6]` of `ch6_to_stereo` (source channel order
`{L, R, C, LFE, Ls, Rs}`), with the float literals kept as exact decimals. -/
def dpl_a : Nat → Nat → Frac
  | 0, 0 => ⟨1, 1⟩
  | 0, 1 => ⟨0, 1⟩
  | 0, 2 => ⟨707, 1000⟩
  | 0, 3 => ⟨707, 1000⟩
  | 0, 4 => ⟨-8165, 10000⟩
  | 0, 5 => ⟨-5774, 10000⟩
  | 1, 0 => ⟨0, 1⟩
  | 1, 1 => ⟨1, 1⟩
  | 1, 2 => ⟨707, 1000⟩
  | 1, 3 => ⟨707, 1000⟩
  | 1, 4 => ⟨5774, 10000⟩
  | 1, 5 => ⟨8165, 10000⟩
  | _, _ => ⟨0, 1⟩

/-- `const float normalization = 0.2626` of `ch6_to_stereo`. -/
def dpl_norm : Frac := ⟨2626, 10000⟩

/-- Integer-accumulator down-mix of one frame:
`sample_out[j] += a[j][k] * sample_in[k] * normalization` where
`sample_out[j]` is an integer, so every `+=` truncates the float sum back to
an integer. -/
def dpl_mix_int (ins : List Int) (j : Nat) : Int :=
  (List.range 6).foldl
    (fun s k =>
      (Frac.add (Frac.ofInt s)
        ((dpl_a j k).mul (Frac.ofInt (ins.getD k 0)) |>.mul dpl_norm)).trunc)
    0

/-- Float-accumulator down-mix of one frame. -/
def dpl_mix_f (ins : List Frac) (j : Nat) : Frac :=
  (List.range 6).foldl
    (fun s k =>
      Frac.add s ((dpl_a j k).mul (ins.getD k (Frac.ofInt 0)) |>.mul dpl_norm))
    (Frac.ofInt 0)

/-- `ch6_to_stereo` S16 loop (`Bps = 2`): while `i < size` step `6 * Bps`,
read six little-endian `int16_t`, mix, and store the two `int16_t` results
(stores wrap to the low 16 bits). -/
def ch6_s16 (n : Nat) (l : List Nat) : Option (List Nat) :=
  if n = 0 then some []
  else if 12 ≤ l.length then
    match ch6_s16 (n - 12) (l.drop 12) with
    | some r =>
        let ins := (List.range 6).map
          (fun k => toSigned 16 (le16 (l.getD (2 * k) 0) (l.getD (2 * k + 1) 0)))
        some (bytes16 (toUnsigned 16 (dpl_mix_int ins 0)) ++
              bytes16 (toUnsigned 16 (dpl_mix_int ins 1)) ++ r)
    | none => none
  else none
termination_by n
decreasing_by omega

/-- `ch6_to_stereo` S32 loop (`Bps = 4`): as `ch6_s16` with `int32_t`. -/
def ch6_s32 (n : Nat) (l : List Nat) : Option (List Nat) :=
  if n = 0 then some []
  else if 24 ≤ l.length then
    match ch6_s32 (n - 24) (l.drop 24) with
    | some r =>
        let ins := (List.range 6).map
          (fun k => toSigned 32 (le32 (l.getD (4 * k) 0) (l.getD (4 * k + 1) 0)
            (l.getD (4 * k + 2) 0) (l.getD (4 * k + 3) 0)))
        some (bytes32 (toUnsigned 32 (dpl_mix_int ins 0)) ++
              bytes32 (toUnsigned 32 (dpl_mix_int ins 1)) ++ r)
    | none => none
  else none
termination_by n
decreasing_by omega

/-- `ch6_to_stereo` FLOAT loop (`Bps = 4`): while `i < size` step `24`,
read six binary32 elements, mix into float accumulators, store both. -/
def ch6_f (n : Nat) (l : List Frac) : Option (List Frac) :=
  if n = 0 then some []
  else if 6 ≤ l.length then
    match ch6_f (n - 24) (l.drop 6) with
    | some r =>
        some (dpl_mix_f (l.take 6) 0 :: dpl_mix_f (l.take 6) 1 :: r)
    | none => none
  else none
termination_by n
decreasing_by omega

/-- `ch6_to_stereo (ch6, size, format)`: DPL down-mix 5.1 → stereo.  The
branch is chosen by testing the `format` tag's S16, FLOAT, then S32 bits;
other formats `abort()`.  A branch whose sample type disagrees with the
buffer's actual element type reads reinterpreted memory out of bounds. -/
def ch6_to_stereo (b : SndBuf) (size : Nat) (format : Sfmt) :
    Option SndBuf :=
  if format.fmt = .S16 then do
    let l ← asBytes b
    (ch6_s16 size l).map .bytes
  else if format.fmt = .FLOAT then do
    let l ← asFloats b
    (ch6_f size l).map .floats
  else if format.fmt = .S32 then do
    let l ← asBytes b
    (ch6_s32 size l).map .bytes
  else none

/-! ### Fast-path bit-width reducers -/

/-- `s32_to_s24_3`: per 32-bit sample, keep bytes 1, 2, 3 of the
little-endian word (`(v>>8)&0xFF, (v>>16)&0xFF, (v>>24)&0xFF`). -/
def s32_to_s24_3 : Nat → List Nat → Option (List Nat)
  | 0, _ => some []
  | n + 1, b0 :: b1 :: b2 :: b3 :: rest =>
      (s32_to_s24_3 n rest).map (fun r => b1 :: b2 :: b3 :: r)
  | _ + 1, _ => none

/-- `s32_to_s16`: per sample, arithmetic shift right by 16. -/
def s32_to_s16 : Nat → List Nat → Option (List Nat)
  | 0, _ => some []
  | n + 1, b0 :: b1 :: b2 :: b3 :: rest =>
      (s32_to_s16 n rest).map
        (fun r =>
          bytes16 (toUnsigned 16 (asr (toSigned 32 (le32 b0 b1 b2 b3)) 16)) ++ r)
  | _ + 1, _ => none

/-- `u32_to_u16`: per sample, logical shift right by 16. -/
def u32_to_u16 : Nat → List Nat → Option (List Nat)
  | 0, _ => some []
  | n + 1, b0 :: b1 :: b2 :: b3 :: rest =>
      (u32_to_u16 n rest).map
        (fun r => bytes16 (le32 b0 b1 b2 b3 / 65536 % 65536) ++ r)
  | _ + 1, _ => none

/-- `s32_to_s24`: per sample, arithmetic shift right by 8, stored back in a
32-bit container. -/
def s32_to_s24 : Nat → List Nat → Option (List Nat)
  | 0, _ => some []
  | n + 1, b0 :: b1 :: b2 :: b3 :: rest =>
      (s32_to_s24 n rest).map
        (fun r =>
          bytes32 (toUnsigned 32 (asr (toSigned 32 (le32 b0 b1 b2 b3)) 8)) ++ r)
  | _ + 1, _ => none

/-- `u32_to_u24`: per sample, logical shift right by 8, 32-bit container. -/
def u32_to_u24 : Nat → List Nat → Option (List Nat)
  | 0, _ => some []
  | n + 1, b0 :: b1 :: b2 :: b3 :: rest =>
      (u32_to_u24 n rest).map
        (fun r => bytes32 (le32 b0 b1 b2 b3 / 256) ++ r)
  | _ + 1, _ => none

/-- `s24_to_s16`: per 24-in-32 sample, arithmetic shift right by 8, stored
as `int16_t` (low 16 bits). -/
def s24_to_s16 : Nat → List Nat → Option (List Nat)
  | 0, _ => some []
  | n + 1, b0 :: b1 :: b2 :: b3 :: rest =>
      (s24_to_s16 n rest).map
        (fun r =>
          bytes16 (toUnsigned 16 (asr (toSigned 32 (le32 b0 b1 b2 b3)) 8)) ++ r)
  | _ + 1, _ => none

/-- `u24_to_u16`: per 24-in-32 sample, logical shift right by 8, stored as
`uint16_t` (low 16 bits). -/
def u24_to_u16 : Nat → List Nat → Option (List Nat)
  | 0, _ => some []
  | n + 1, b0 :: b1 :: b2 :: b3 :: rest =>
      (u24_to_u16 n rest).map
        (fun r => bytes16 (le32 b0 b1 b2 b3 / 256 % 65536) ++ r)
  | _ + 1, _ => none

/-! ### Descriptor construction (`audio_conv_new`) -/

/-- Configuration options and external-library outcomes `audio_conv_new`
consumes, passed in as parameters of the model: `EnableResample` and
`ResampleMethod` are read through the options interface, and `src_new_ok`
records whether the external `src_new` call succeeds. -/
structure ConvOptions where
  EnableResample : Int
  ResampleMethod : String
  src_new_ok : Bool
deriving DecidableEq, Repr

/-- The `strcasecmp` cascade mapping a `ResampleMethod` name to a
libsamplerate converter type; an unrecognized name falls through to
`fatal()`. -/
def resample_method_type (m : String) : Option Nat :=
  if m.toLower = "sincbestquality" then some 0
  else if m.toLower = "sincmediumquality" then some 1
  else if m.toLower = "sincfastest" then some 2
  else if m.toLower = "zeroorderhold" then some 3
  else if m.toLower = "linear" then some 4
  else none

/-- The conversion descriptor: source and target parameters plus whether a
resampler state was created (`src_state != NULL`). -/
structure AudioConversion where
  from' : SoundParams
  to' : SoundParams
  src_present : Bool
deriving DecidableEq, Repr

/-- `resample_buf` / `resample_buf_nsamples`: the carry-over of input floats
not yet consumed by the resampler.  `resample_buf` is `none` exactly when
the C pointer is `NULL`. -/
structure CarryState where
  resample_buf : Option (List Frac)
  resample_buf_nsamples : Nat
deriving DecidableEq, Repr

/-- `audio_conv_new (conv, from, to)`: validate the channel mapping, read
the configuration, and initialize the resampler when the rates differ.  The
entry assertion requires `from` and `to` to differ; an unsupported channel
change or disabled resampling return the error; an unknown
`ResampleMethod` is `fatal()`; a failing `src_new` returns the error.
All failure modes are `none`. -/
def audio_conv_new (opts : ConvOptions) (f t : SoundParams) :
    Option AudioConversion :=
  if f = t then none
  else if f.channels ≠ t.channels ∧
      ¬((f.channels = 1 ∨ f.channels = 6) ∧ t.channels = 2) then none
  else if f.rate ≠ t.rate then
    if opts.EnableResample = 0 then none
    else
      match resample_method_type opts.ResampleMethod with
      | none => none
      | some _ => if opts.src_new_ok then some ⟨f, t, true⟩ else none
  else some ⟨f, t, false⟩

/-! ### Resampler carry-over (`resample_sound`)

The underlying `src_process` primitive is external; the model takes an
oracle: a list of `(input_frames_used, output_frames_gen)` responses, one
per `src_process` call.  A response claiming more frames than remain, or an
execution the oracle does not fully describe, yields `none`. -/

/-- The `do { src_process; advance } while (input_frames &&
output_frames_gen && output_frames)` loop.  State: `(data_in` position in
floats`, input_frames` remaining`, output_frames` remaining`,
output_samples` accumulated`)`; returns the final position, remaining
frames and accumulated output samples. -/
def resample_loop (nch : Nat) :
    List (Nat × Nat) → Nat × Nat × Nat × Nat → Option (Nat × Nat × Nat)
  | [], _ => none
  | (used, gen) :: rest, (p, frames, outF, acc) =>
      if used ≤ frames ∧ gen ≤ outF then
        let p' := p + used * nch
        let frames' := frames - used
        let outF' := outF - gen
        let acc' := acc + gen * nch
        if frames' ≠ 0 ∧ gen ≠ 0 ∧ outF' ≠ 0 then
          resample_loop nch rest (p', frames', outF', acc')
        else some (p', frames', acc')
      else none

/-- `resample_sound (conv, buf, samples, nchannels, &resampled_samples)`:
prepend the carry-over to the fresh input, drive `src_process`, keep the
unconsumed tail as the new carry-over.  `output_frames = input_frames *
src_ratio` truncates the double product (modelled by natural division).
The returned buffer's sample values come from the external resampler and
are not modelled (zeros); only its length is meaningful.  The entry
assertion, an over-long `memcpy` into the reallocated carry buffer, and a
failing `src_process` are `none`. -/
def resample_sound (conv : AudioConversion) (st : CarryState)
    (buf : List Frac) (samples : Nat) (nch : Nat)
    (oracle : List (Nat × Nat)) : Option (List Frac × Nat × CarryState) :=
  if st.resample_buf = none ∧ st.resample_buf_nsamples ≠ 0 then none
  else
    let input_frames := samples / nch + st.resample_buf_nsamples / nch
    let output_frames := input_frames * conv.to'.rate / conv.from'.rate
    if samples ≤ buf.length ∧
        st.resample_buf_nsamples + samples ≤ input_frames * nch then
      let combined :=
        (st.resample_buf.getD []).take st.resample_buf_nsamples ++
          buf.take samples
      match resample_loop nch oracle (0, input_frames, output_frames, 0) with
      | none => none
      | some (p, frames, acc) =>
          if frames ≠ 0 then
            some (List.replicate acc (Frac.ofInt 0), acc,
              ⟨some ((combined.drop p).take (frames * nch)), frames * nch⟩)
          else
            some (List.replicate acc (Frac.ofInt 0), acc, ⟨none, 0⟩)
    else none

/-! ### The pipeline orchestrator (`audio_conv`) -/

/-- Conversion stages, recorded in the order `audio_conv` performs them
(mirroring the source's `logit`/`debug` calls). -/
inductive Stage where
  | swapIn | fast32_24_3 | fast32_16 | fast32_24 | fast24_16
  | toFloat | resample | signFlip | floatToFixed | monoStereo | ch6Stereo
  | swapOut
deriving DecidableEq, Repr

/-- Working state threaded through `audio_conv`: the current buffer
(`curr_sound`), its format tag (`curr_sfmt`), the current byte length
(`*conv_len`) and the trace of stages performed so far. -/
structure ConvWork where
  buf : SndBuf
  fmt : Sfmt
  len : Nat
  tr : List Stage
deriving DecidableEq, Repr

/-- `audio_conv (conv, buf, size, &conv_len)`: the conversion pipeline.
Steps, in source order:
1. endianness normalization if the source format is not native-endian;
2. fast path 32-bit → packed 24-bit at equal rates;
3. fast path 32-bit → 16-bit at equal rates;
4. fast path 32-bit → 24-in-32 at equal rates (`conv_len` unchanged —
   the container stays 4 bytes);
5. fast path 24-in-32 → 16-bit at equal rates;
6. conversion to float when the rates differ, the target is float, or the
   widths still differ — unless already float;
7. resampling when the rates differ;
8. if the format still differs from the target: sign flip when the widths
   match (note: called with the *original* `size`, not `*conv_len`),
   otherwise float → fixed;
9. mono → stereo when `from.channels == 1 && to.channels == 2`;
10. 5.1 → stereo when `from.channels == 6 && to.channels == 2` (note:
    called with `conv->from.fmt`, not the current format);
11. endianness fix-up to the target endianness.
Returns the final buffer, `*conv_len`, the stage trace, and the updated
carry-over state. -/
def audio_conv (oracle : List (Nat × Nat)) (conv : AudioConversion)
    (st : CarryState) (input : SndBuf) :
    Option (SndBuf × Nat × List Stage × CarryState) := do
  let size := sndLen input
  let w : ConvWork := ⟨input, conv.from'.fmt, size, []⟩
  -- 1. normalize endianness
  let w ←
    if w.fmt.endian ≠ SfmtEndian.LE then do
      let c ← swap_endian w.buf w.len w.fmt
      pure { w with buf := c, fmt := sfmt_set_endian w.fmt .LE,
                    tr := w.tr ++ [Stage.swapIn] }
    else pure w
  -- 2. special case: 32bit -> 24bit_3
  let w ←
    if (w.fmt.fmt = .S32 ∨ w.fmt.fmt = .U32) ∧
        (conv.to'.fmt.fmt = .S24_3 ∨ conv.to'.fmt.fmt = .U24_3) ∧
        conv.from'.rate = conv.to'.rate then do
      let l ← asBytes w.buf
      let nl ← s32_to_s24_3 (w.len / 4) l
      let f := if w.fmt.fmt = .S32 then sfmt_set_fmt w.fmt .S24_3
               else sfmt_set_fmt w.fmt .U24_3
      pure { w with buf := .bytes nl, fmt := f, len := w.len * 3 / 4,
                    tr := w.tr ++ [Stage.fast32_24_3] }
    else pure w
  -- 3. special case: 32bit -> 16bit
  let w ←
    if (w.fmt.fmt = .S32 ∨ w.fmt.fmt = .U32) ∧
        (conv.to'.fmt.fmt = .S16 ∨ conv.to'.fmt.fmt = .U16) ∧
        conv.from'.rate = conv.to'.rate then do
      let l ← asBytes w.buf
      if w.fmt.fmt = .S32 then do
        let nl ← s32_to_s16 (w.len / 4) l
        pure { w with buf := .bytes nl, fmt := sfmt_set_fmt w.fmt .S16,
                      len := w.len / 2, tr := w.tr ++ [Stage.fast32_16] }
      else do
        let nl ← u32_to_u16 (w.len / 4) l
        pure { w with buf := .bytes nl, fmt := sfmt_set_fmt w.fmt .U16,
                      len := w.len / 2, tr := w.tr ++ [Stage.fast32_16] }
    else pure w
  -- 4. special case: 32bit -> 24bit
  let w ←
    if (w.fmt.fmt = .S32 ∨ w.fmt.fmt = .U32) ∧
        (conv.to'.fmt.fmt = .S24 ∨ conv.to'.fmt.fmt = .U24) ∧
        conv.from'.rate = conv.to'.rate then do
      let l ← asBytes w.buf
      if w.fmt.fmt = .S32 then do
        let nl ← s32_to_s24 (w.len / 4) l
        pure { w with buf := .bytes nl, fmt := sfmt_set_fmt w.fmt .S24,
                      tr := w.tr ++ [Stage.fast32_24] }
      else do
        let nl ← u32_to_u24 (w.len / 4) l
        pure { w with buf := .bytes nl, fmt := sfmt_set_fmt w.fmt .U24,
                      tr := w.tr ++ [Stage.fast32_24] }
    else pure w
  -- 5. special case: 24bit -> 16bit
  let w ←
    if (w.fmt.fmt = .S24 ∨ w.fmt.fmt = .U24) ∧
        (conv.to'.fmt.fmt = .S16 ∨ conv.to'.fmt.fmt = .U16) ∧
        conv.from'.rate = conv.to'.rate then do
      let l ← asBytes w.buf
      if w.fmt.fmt = .S24 then do
        let nl ← s24_to_s16 (w.len / 4) l
        pure { w with buf := .bytes nl, fmt := sfmt_set_fmt w.fmt .S16,
                      len := w.len / 2, tr := w.tr ++ [Stage.fast24_16] }
      else do
        let nl ← u24_to_u16 (w.len / 4) l
        pure { w with buf := .bytes nl, fmt := sfmt_set_fmt w.fmt .U16,
                      len := w.len / 2, tr := w.tr ++ [Stage.fast24_16] }
    else pure w
  -- 6. convert to float if necessary
  let w ←
    if (conv.from'.rate ≠ conv.to'.rate ∨ conv.to'.fmt.fmt = .FLOAT ∨
        sfmt_same_bps conv.to'.fmt w.fmt = false) ∧ w.fmt.fmt ≠ .FLOAT then do
      let l ← asBytes w.buf
      let (fl, n) ← fixed_to_float l w.len w.fmt
      pure { w with buf := .floats fl, fmt := sfmt_set_fmt w.fmt .FLOAT,
                    len := n, tr := w.tr ++ [Stage.toFloat] }
    else pure w
  -- 7. resample
  let (w, st) ←
    if conv.from'.rate ≠ conv.to'.rate then do
      let l ← asFloats w.buf
      let (out, n, st') ←
        resample_sound conv st l (w.len / 4) conv.from'.channels oracle
      pure ({ w with buf := .floats out, len := n * 4,
                     tr := w.tr ++ [Stage.resample] }, st')
    else pure (w, st)
  -- 8. reach the target encoding
  let w ←
    if w.fmt.fmt ≠ conv.to'.fmt.fmt then
      if sfmt_same_bps w.fmt conv.to'.fmt = true then do
        let (c, f) ← change_sign w.buf size w.fmt
        pure { w with buf := c, fmt := f, tr := w.tr ++ [Stage.signFlip] }
      else do
        let l ← asFloats w.buf
        let (nl, n) ← float_to_fixed l (w.len / 4) conv.to'.fmt
        pure { w with buf := .bytes nl,
                      fmt := sfmt_set_fmt w.fmt conv.to'.fmt.fmt, len := n,
                      tr := w.tr ++ [Stage.floatToFixed] }
    else pure w
  -- 9. mono -> stereo
  let w ←
    if conv.from'.channels = 1 ∧ conv.to'.channels = 2 then do
      let c ← mono_to_stereo w.buf w.len w.fmt
      pure { w with buf := c, len := w.len * 2,
                    tr := w.tr ++ [Stage.monoStereo] }
    else pure w
  -- 10. 5.1 -> stereo (note: passes conv->from.fmt)
  let w ←
    if conv.from'.channels = 6 ∧ conv.to'.channels = 2 then do
      let c ← ch6_to_stereo w.buf w.len conv.from'.fmt
      pure { w with buf := c, len := w.len / 3,
                    tr := w.tr ++ [Stage.ch6Stereo] }
    else pure w
  -- 11. fix target endianness
  let w ←
    if w.fmt.endian ≠ conv.to'.fmt.endian then do
      let c ← swap_endian w.buf w.len w.fmt
      pure { w with buf := c,
                    fmt := sfmt_set_endian w.fmt conv.to'.fmt.endian,
                    tr := w.tr ++ [Stage.swapOut] }
    else pure w
  pure (w.buf, w.len, w.tr, st)

/-! ### Spec-side transforms used to state the claims -/

/-- The transform the spec describes for 16-bit samples: pairwise byte
swap.  A trailing group shorter than the sample is untouched. -/
def pairRev : List Nat → List Nat
  | b0 :: b1 :: rest => b1 :: b0 :: pairRev rest
  | l => l

/-- The transform the spec describes for packed 24-bit samples: exchange
bytes 0 and 2 of each 3-byte group (the middle byte stays). -/
def tripRev : List Nat → List Nat
  | b0 :: b1 :: b2 :: rest => b2 :: b1 :: b0 :: tripRev rest
  | l => l

/-- The transform the spec describes for 24-padded and 32-bit samples:
full 4-byte reversal. -/
def quadRev : List Nat → List Nat
  | b0 :: b1 :: b2 :: b3 :: rest => b3 :: b2 :: b1 :: b0 :: quadRev rest
  | l => l

/-- The spec-described byte transform of one endianness swap, by format. -/
def swap_spec (f : SfmtFmt) : List Nat → List Nat :=
  match swap_container f with
  | 2 => pairRev
  | 3 => tripRev
  | _ => quadRev

/-- The spec-described mono → stereo output: each `k`-byte frame of the
input appears twice in a row. -/
def dupSpec (k : Nat) (l : List Nat) : List Nat :=
  if h : 0 < k ∧ k ≤ l.length then
    l.take k ++ l.take k ++ dupSpec k (l.drop k)
  else []
termination_by l.length
decreasing_by simp; omega

/-! ### Concrete conversion scenarios from the spec -/

/-- Scenario: `from = (FLOAT, 44100, 6)`, `to = (S16-LE, 44100, 2)`. -/
def convC1 : AudioConversion :=
  ⟨⟨⟨.FLOAT, .LE⟩, 44100, 6⟩, ⟨⟨.S16, .LE⟩, 44100, 2⟩, false⟩

/-- Scenario: `from = (S32-LE, 48000, 2)`, `to = (S16-LE, 48000, 2)`. -/
def convC2 : AudioConversion :=
  ⟨⟨⟨.S32, .LE⟩, 48000, 2⟩, ⟨⟨.S16, .LE⟩, 48000, 2⟩, false⟩

/-- Scenario: `from = (S32-LE, 44100, 1)`, `to = (U16-LE, 44100, 1)`:
widths differ (fast path applies), then only signedness differs. -/
def convC3 : AudioConversion :=
  ⟨⟨⟨.S32, .LE⟩, 44100, 1⟩, ⟨⟨.U16, .LE⟩, 44100, 1⟩, false⟩

/-- Scenario: a resampling conversion, float 44100 → 48000, stereo. -/
def convC9 : AudioConversion :=
  ⟨⟨⟨.FLOAT, .LE⟩, 44100, 2⟩, ⟨⟨.FLOAT, .LE⟩, 48000, 2⟩, true⟩

/-- The empty carry-over state a fresh descriptor starts with. -/
def stC0 : CarryState := ⟨none, 0⟩

/-! ## Helper lemmas -/

theorem flipAt_length (p : Nat) (l : List Nat) :
    (flipAt p l).length = l.length := by
  induction l generalizing p with
  | nil => simp [flipAt]
  | cons b bs ih =>
      cases p with
      | zero => rfl
      | succ q => simpa [flipAt] using ih q

theorem flipAt_flipAt (p : Nat) (l : List Nat) : flipAt p (flipAt p l) = l := by
  induction l generalizing p with
  | nil => simp [flipAt]
  | cons b bs ih =>
      cases p with
      | zero => simp [flipAt, Nat.xor_cancel_right]
      | succ q => simp [flipAt, ih q]

theorem change_sign_blk_length {s p n : Nat} {l r : List Nat}
    (h : change_sign_blk s p n l = some r) : r.length = l.length := by
  induction n generalizing l r with
  | zero => simp [change_sign_blk] at h; simp [h]
  | succ m ih =>
      rw [change_sign_blk] at h
      split at h
      · next hle =>
          cases hrec : change_sign_blk s p m (l.drop s) with
          | none => rw [hrec] at h; simp at h
          | some r' =>
              rw [hrec] at h
              simp at h
              subst h
              have := ih hrec
              simp [flipAt_length, this]
              omega
      · simp at h

theorem change_sign_blk_some (s p n : Nat) (l : List Nat)
    (h : s * n ≤ l.length) : ∃ r, change_sign_blk s p n l = some r := by
  induction n generalizing l with
  | zero => exact ⟨l, rfl⟩
  | succ m ih =>
      rw [Nat.mul_succ] at h
      have hle : s ≤ l.length := by omega
      obtain ⟨r', hr'⟩ := ih (l.drop s) (by simp; omega)
      refine ⟨flipAt p (l.take s) ++ r', ?_⟩
      rw [change_sign_blk, if_pos hle, hr']

theorem change_sign_blk_invol {s p n : Nat} {l r : List Nat}
    (h : change_sign_blk s p n l = some r) :
    change_sign_blk s p n r = some l := by
  induction n generalizing l r with
  | zero =>
      simp [change_sign_blk] at h ⊢
      exact h.symm
  | succ m ih =>
      rw [change_sign_blk] at h
      split at h
      · next hle =>
          cases hrec : change_sign_blk s p m (l.drop s) with
          | none => rw [hrec] at h; simp at h
          | some r' =>
              rw [hrec] at h
              simp at h
              subst h
              have hlen : r'.length = (l.drop s).length := change_sign_blk_length hrec
              have htk : (flipAt p (l.take s)).length = s := by
                simp [flipAt_length]
                omega
              rw [change_sign_blk]
              have hle2 : s ≤ (flipAt p (l.take s) ++ r').length := by
                simp [htk]
              rw [if_pos hle2]
              have hdrop : (flipAt p (l.take s) ++ r').drop s = r' :=
                List.drop_left' htk
              have htake : (flipAt p (l.take s) ++ r').take s = flipAt p (l.take s) :=
                List.take_left' htk
              rw [hdrop, ih hrec, htake, flipAt_flipAt]
              simp
      · simp at h

theorem pairRev_pairRev : ∀ l : List Nat, pairRev (pairRev l) = l
  | [] => rfl
  | [b] => rfl
  | b0 :: b1 :: rest => by simp [pairRev, pairRev_pairRev rest]

theorem tripRev_tripRev : ∀ l : List Nat, tripRev (tripRev l) = l
  | [] => rfl
  | [b] => rfl
  | [b, c] => rfl
  | b0 :: b1 :: b2 :: rest => by simp [tripRev, tripRev_tripRev rest]

theorem quadRev_quadRev : ∀ l : List Nat, quadRev (quadRev l) = l
  | [] => rfl
  | [b] => rfl
  | [b, c] => rfl
  | [b, c, d] => rfl
  | b0 :: b1 :: b2 :: b3 :: rest => by
      simp [quadRev, quadRev_quadRev rest]

theorem pairRev_length : ∀ l : List Nat, (pairRev l).length = l.length
  | [] => rfl
  | [b] => rfl
  | b0 :: b1 :: rest => by simp [pairRev, pairRev_length rest]

theorem tripRev_length : ∀ l : List Nat, (tripRev l).length = l.length
  | [] => rfl
  | [b] => rfl
  | [b, c] => rfl
  | b0 :: b1 :: b2 :: rest => by simp [tripRev, tripRev_length rest]

theorem quadRev_length : ∀ l : List Nat, (quadRev l).length = l.length
  | [] => rfl
  | [b] => rfl
  | [b, c] => rfl
  | [b, c, d] => rfl
  | b0 :: b1 :: b2 :: b3 :: rest => by simp [quadRev, quadRev_length rest]

theorem bswap16_eq_pairRev :
    ∀ l : List Nat, audio_conv_bswap_16 (l.length / 2) l = some (pairRev l)
  | [] => by simp [audio_conv_bswap_16, pairRev]
  | [b] => by simp [audio_conv_bswap_16, pairRev]
  | b0 :: b1 :: rest => by
      have ih := bswap16_eq_pairRev rest
      have hlen : (b0 :: b1 :: rest).length / 2 = rest.length / 2 + 1 := by
        simp
        omega
      rw [hlen, audio_conv_bswap_16, ih]
      simp [pairRev]

theorem bswap32_eq_quadRev :
    ∀ l : List Nat, audio_conv_bswap_32 (l.length / 4) l = some (quadRev l)
  | [] => by simp [audio_conv_bswap_32, quadRev]
  | [b] => by simp [audio_conv_bswap_32, quadRev]
  | [b, c] => by simp [audio_conv_bswap_32, quadRev]
  | [b, c, d] => by simp [audio_conv_bswap_32, quadRev]
  | b0 :: b1 :: b2 :: b3 :: rest => by
      have ih := bswap32_eq_quadRev rest
      have hlen : (b0 :: b1 :: b2 :: b3 :: rest).length / 4 = rest.length / 4 + 1 := by
        simp
        omega
      rw [hlen, audio_conv_bswap_32, ih]
      simp [quadRev]

theorem bswap24_eq_tripRev :
    ∀ l : List Nat, 3 ∣ l.length →
      audio_conv_bswap_24 l.length l = some (tripRev l)
  | [], _ => by simp [audio_conv_bswap_24, tripRev]
  | [b], h => by simp at h
  | [b, c], h => by simp at h; omega
  | b0 :: b1 :: b2 :: rest, h => by
      have hd : 3 ∣ rest.length := by
        simp at h
        omega
      have ih := bswap24_eq_tripRev rest hd
      have hlen : (b0 :: b1 :: b2 :: rest).length = rest.length + 2 + 1 := by
        simp
      rw [hlen, audio_conv_bswap_24]
      simp only [Nat.add_sub_cancel]
      rw [ih]
      simp [tripRev]

theorem mono_dup_eq_dupSpec (k : Nat) (l : List Nat) (hk : 0 < k)
    (hd : k ∣ l.length) : mono_dup k l.length l = some (dupSpec k l) := by
  by_cases h0 : l.length = 0
  · have : l = [] := List.length_eq_zero.mp h0
    subst this
    rw [dupSpec, dif_neg (by simp; omega)]
    rw [mono_dup]
    simp
  · have hle : k ≤ l.length := Nat.le_of_dvd (Nat.pos_of_ne_zero h0) hd
    have hdl : (l.drop k).length = l.length - k := by simp
    have hd2 : k ∣ (l.drop k).length := by
      rw [hdl]
      exact (Nat.dvd_sub' hd dvd_rfl)
    have ih := mono_dup_eq_dupSpec k (l.drop k) hk hd2
    rw [hdl] at ih
    rw [mono_dup, if_neg h0, if_pos hk, if_pos hle, ih]
    conv_rhs => rw [dupSpec]
    rw [dif_pos ⟨hk, hle⟩]
termination_by l.length
decreasing_by simp; omega

theorem dupSpec_length (k : Nat) (l : List Nat) (hk : 0 < k)
    (hd : k ∣ l.length) : (dupSpec k l).length = 2 * l.length := by
  by_cases h : k ≤ l.length
  · have hd2 : k ∣ (l.drop k).length := by
      simp
      exact (Nat.dvd_sub' hd dvd_rfl)
    have ih := dupSpec_length k (l.drop k) hk hd2
    rw [dupSpec, dif_pos ⟨hk, h⟩]
    simp [ih]
    omega
  · have h0 : l.length = 0 := by
      rcases Nat.eq_zero_or_pos l.length with h0 | hpos
      · exact h0
      · exact absurd (Nat.le_of_dvd hpos hd) h
    rw [dupSpec, dif_neg (by omega)]
    simp [h0]
termination_by l.length
decreasing_by simp; omega

theorem dupSpec_frame (k : Nat) (hk : 0 < k) (l : List Nat)
    (hd : k ∣ l.length) (j : Nat) :
    ((dupSpec k l).drop (j * (2 * k))).take (2 * k) =
      (l.drop (j * k)).take k ++ (l.drop (j * k)).take k := by
  induction j generalizing l with
  | zero =>
      simp only [Nat.zero_mul, List.drop_zero]
      by_cases h : k ≤ l.length
      · rw [dupSpec, dif_pos ⟨hk, h⟩]
        have h2 : (l.take k ++ l.take k).length = 2 * k := by
          simp
          omega
        rw [List.take_left' h2]
      · have h0 : l.length = 0 := by
          rcases Nat.eq_zero_or_pos l.length with h0 | hpos
          · exact h0
          · exact absurd (Nat.le_of_dvd hpos hd) h
        have : l = [] := List.length_eq_zero.mp h0
        subst this
        rw [dupSpec, dif_neg (by omega)]
        simp
  | succ i ih =>
      by_cases h : k ≤ l.length
      · rw [dupSpec, dif_pos ⟨hk, h⟩]
        have h2 : (l.take k ++ l.take k).length = 2 * k := by
          simp
          omega
        have harith : (i + 1) * (2 * k) = (l.take k ++ l.take k).length + i * (2 * k) := by
          rw [h2]
          ring
        rw [harith, List.drop_append]
        have hd2 : k ∣ (l.drop k).length := by
          simp
          exact (Nat.dvd_sub' hd dvd_rfl)
        rw [ih (l.drop k) hd2]
        rw [List.drop_drop]
        have : k + i * k = (i + 1) * k := by ring
        rw [this]
      · have h0 : l.length = 0 := by
          rcases Nat.eq_zero_or_pos l.length with h0 | hpos
          · exact h0
          · exact absurd (Nat.le_of_dvd hpos hd) h
        have : l = [] := List.length_eq_zero.mp h0
        subst this
        rw [dupSpec, dif_neg (by omega)]
        simp

theorem sfmt_Bps_pos (f : SfmtFmt) : 0 < sfmt_Bps f := by
  cases f <;> simp [sfmt_Bps]

/-! ## The claims -/

/-- C1: the spec's scenario `from = (FLOAT, 44100, 6)`,
`to = (S16-LE, 44100, 2)` with one frame of six floats
`{0.5, 0.5, 0, 0, 0, 0}` is claimed to yield `[0xCD 0x10 0xCD 0x10]`.
The code first quantizes the six floats to S16 (third conjunct: twelve
bytes, left/right become `16384`), and only then runs the 5.1 → stereo
down-mix — but passes `conv->from.fmt` (`FLOAT`), so `ch6_to_stereo` takes
its float branch over a buffer that now holds 16-bit samples, reading
24 bytes per frame from a 12-byte buffer and writing 8 bytes into a 4-byte
allocation.  The conversion cannot produce the claimed bytes; the
out-of-bounds execution is modelled by `none` (first and second
conjuncts). -/
theorem audio_conv_float51_to_s16_crashes :
    audio_conv [] convC1 stC0
        (.floats [⟨1, 2⟩, ⟨1, 2⟩, ⟨0, 1⟩, ⟨0, 1⟩, ⟨0, 1⟩, ⟨0, 1⟩]) = none ∧
      ch6_to_stereo (.bytes [0, 64, 0, 64, 0, 0, 0, 0, 0, 0, 0, 0]) 12
        ⟨.FLOAT, .LE⟩ = none ∧
      float_to_fixed [⟨1, 2⟩, ⟨1, 2⟩, ⟨0, 1⟩, ⟨0, 1⟩, ⟨0, 1⟩, ⟨0, 1⟩] 6
        ⟨.S16, .LE⟩ = some ([0, 64, 0, 64, 0, 0, 0, 0, 0, 0, 0, 0], 12) := by
  decide

/-- C2 (counterexample): for `from = (S32-LE, 48000, 2)`,
`to = (S16-LE, 48000, 2)` and input `[00 00 00 7F 00 00 00 80]`, the
claimed output `[FF 7F 00 80]` is wrong: the first input word is
`0x7F000000` (not the maximal `0x7FFFFFFF`), and `0x7F000000 >> 16 =
0x7F00`, so the pipeline returns `[00 7F 00 80]`. -/
theorem audio_conv_s32_to_s16_counterexample :
    (audio_conv [] convC2 stC0
        (.bytes [0, 0, 0, 127, 0, 0, 0, 128])).map (fun r => r.1) =
        some (.bytes [0, 127, 0, 128]) ∧
      SndBuf.bytes [0, 127, 0, 128] ≠ SndBuf.bytes [255, 127, 0, 128] := by
  decide

/-- C2 (amended): on that input the pipeline returns `[00 7F 00 80]`
(`0x7F00` and `0x8000` little-endian), and the stage trace is exactly the
32 → 16 fast path — per-sample arithmetic shift right by 16 with no float
round-trip (no `toFloat`/`floatToFixed` stage runs) — and the carry-over
state is untouched. -/
theorem audio_conv_s32_to_s16_fast_path :
    audio_conv [] convC2 stC0 (.bytes [0, 0, 0, 127, 0, 0, 0, 128]) =
      some (.bytes [0, 127, 0, 128], 4, [Stage.fast32_16], stC0) := by
  decide

/-- C3: when a fast path has shrunk the working buffer and only signedness
still differs, `audio_conv` calls `change_sign` with the *original* byte
count `size` instead of `*conv_len`.  For `from = (S32-LE, 44100, 1)`,
`to = (U16-LE, 44100, 1)` and the single frame `[00 00 00 00]`, the 32 → 16
fast path leaves a 2-byte buffer, but `change_sign` is told 4 bytes and
flips a sample beyond the working buffer (first and second conjuncts:
`none`).  With the current length 2 it would return the claimed result —
every working-buffer sample with bit 15 flipped and the tag toggled to
unsigned (third conjunct). -/
theorem audio_conv_fast_path_then_sign_flip_overruns :
    audio_conv [] convC3 stC0 (.bytes [0, 0, 0, 0]) = none ∧
      change_sign (.bytes [0, 0]) 4 ⟨.S16, .LE⟩ = none ∧
      change_sign (.bytes [0, 0]) 2 ⟨.S16, .LE⟩ =
        some (.bytes [0, 128], ⟨.U16, .LE⟩) := by
  decide

/-- C4: `audio_conv_new` fails exactly when the channel counts differ with
a mapping other than 1 → 2 or 6 → 2, or the rates differ and resampling is
disabled, the configured method name is unrecognized, or the underlying
resampler rejects the parameters; given that `from ≠ to`, it succeeds in
every other case. -/
theorem audio_conv_new_fails_iff (opts : ConvOptions) (f t : SoundParams)
    (h : f ≠ t) :
    audio_conv_new opts f t = none ↔
      (f.channels ≠ t.channels ∧
        ¬((f.channels = 1 ∨ f.channels = 6) ∧ t.channels = 2)) ∨
      (f.rate ≠ t.rate ∧
        (opts.EnableResample = 0 ∨
          resample_method_type opts.ResampleMethod = none ∨
          opts.src_new_ok = false)) := by
  unfold audio_conv_new
  rw [if_neg h]
  by_cases hch : f.channels ≠ t.channels ∧
      ¬((f.channels = 1 ∨ f.channels = 6) ∧ t.channels = 2)
  · rw [if_pos hch]
    simp [hch]
  · rw [if_neg hch]
    by_cases hr : f.rate ≠ t.rate
    · rw [if_pos hr]
      by_cases he : opts.EnableResample = 0
      · rw [if_pos he]
        simp [hch, hr, he]
      · rw [if_neg he]
        cases hm : resample_method_type opts.ResampleMethod with
        | none => simp [hch, hr, he, hm]
        | some q =>
            cases hso : opts.src_new_ok with
            | true =>
                simp [hch, hr, he, hm, hso]
                tauto
            | false =>
                simp [hch, hr, he, hm, hso]
    · rw [if_neg hr]
      simp [hch, hr]
      tauto

/-- C4 witness: differing rates with `EnableResample = 0` make `build`
fail. -/
theorem audio_conv_new_fails_iff_witness :
    ((⟨⟨.S16, .LE⟩, 44100, 2⟩ : SoundParams) ≠ ⟨⟨.S16, .LE⟩, 48000, 2⟩) ∧
      (audio_conv_new ⟨0, "Linear", true⟩ ⟨⟨.S16, .LE⟩, 44100, 2⟩
          ⟨⟨.S16, .LE⟩, 48000, 2⟩ = none ↔
        ((⟨⟨.S16, .LE⟩, 44100, 2⟩ : SoundParams).channels ≠
            (⟨⟨.S16, .LE⟩, 48000, 2⟩ : SoundParams).channels ∧
          ¬(((⟨⟨.S16, .LE⟩, 44100, 2⟩ : SoundParams).channels = 1 ∨
              (⟨⟨.S16, .LE⟩, 44100, 2⟩ : SoundParams).channels = 6) ∧
            (⟨⟨.S16, .LE⟩, 48000, 2⟩ : SoundParams).channels = 2)) ∨
        ((⟨⟨.S16, .LE⟩, 44100, 2⟩ : SoundParams).rate ≠
            (⟨⟨.S16, .LE⟩, 48000, 2⟩ : SoundParams).rate ∧
          ((⟨0, "Linear", true⟩ : ConvOptions).EnableResample = 0 ∨
            resample_method_type
              (⟨0, "Linear", true⟩ : ConvOptions).ResampleMethod = none ∨
            (⟨0, "Linear", true⟩ : ConvOptions).src_new_ok = false))) :=
  ⟨by decide, audio_conv_new_fails_iff ⟨0, "Linear", true⟩
    ⟨⟨.S16, .LE⟩, 44100, 2⟩ ⟨⟨.S16, .LE⟩, 48000, 2⟩ (by decide)⟩

/-- C5: for every supported integer width, applying `change_sign` twice to
a buffer (with the byte count equal to the buffer's length, as the pipeline
supplies it) returns the buffer bit-for-bit and restores the format tag. -/
theorem change_sign_involution (f : Sfmt) (l : List Nat)
    (hf : sign_flippable f.fmt = true) :
    (change_sign (.bytes l) l.length f).bind
      (fun p => change_sign p.1 l.length p.2) = some (.bytes l, f) := by
  obtain ⟨ff, fe⟩ := f
  have key : ∀ s p : Nat, ∀ n : Nat, s * n ≤ l.length →
      ∃ r, change_sign_blk s p n l = some r ∧
        change_sign_blk s p n r = some l := by
    intro s p n hn
    obtain ⟨r, hr⟩ := change_sign_blk_some s p n l hn
    exact ⟨r, hr, change_sign_blk_invol hr⟩
  have h2 : 2 * (l.length / 2) ≤ l.length := Nat.mul_div_le l.length 2
  have h4 : 4 * (l.length / 4) ≤ l.length := Nat.mul_div_le l.length 4
  cases ff
  case S8 =>
    obtain ⟨r, hr1, hr2⟩ := key 1 0 l.length (by omega)
    simp [change_sign, asBytes, hr1, hr2, sfmt_set_fmt, sign_toggle]
  case U8 =>
    obtain ⟨r, hr1, hr2⟩ := key 1 0 l.length (by omega)
    simp [change_sign, asBytes, hr1, hr2, sfmt_set_fmt, sign_toggle]
  case S16 =>
    obtain ⟨r, hr1, hr2⟩ := key 2 1 (l.length / 2) h2
    simp [change_sign, asBytes, hr1, hr2, sfmt_set_fmt, sign_toggle]
  case U16 =>
    obtain ⟨r, hr1, hr2⟩ := key 2 1 (l.length / 2) h2
    simp [change_sign, asBytes, hr1, hr2, sfmt_set_fmt, sign_toggle]
  case S24 =>
    obtain ⟨r, hr1, hr2⟩ := key 4 2 (l.length / 4) h4
    simp [change_sign, asBytes, hr1, hr2, sfmt_set_fmt, sign_toggle]
  case U24 =>
    obtain ⟨r, hr1, hr2⟩ := key 4 2 (l.length / 4) h4
    simp [change_sign, asBytes, hr1, hr2, sfmt_set_fmt, sign_toggle]
  case S32 =>
    obtain ⟨r, hr1, hr2⟩ := key 4 3 (l.length / 4) h4
    simp [change_sign, asBytes, hr1, hr2, sfmt_set_fmt, sign_toggle]
  case U32 =>
    obtain ⟨r, hr1, hr2⟩ := key 4 3 (l.length / 4) h4
    simp [change_sign, asBytes, hr1, hr2, sfmt_set_fmt, sign_toggle]
  all_goals simp [sign_flippable] at hf

/-- C5 witness: flipping a 16-bit buffer twice restores it. -/
theorem change_sign_involution_witness :
    sign_flippable (Sfmt.mk .S16 .LE).fmt = true ∧
      (change_sign (.bytes [52, 18]) ([52, 18] : List Nat).length
          ⟨.S16, .LE⟩).bind
        (fun p => change_sign p.1 ([52, 18] : List Nat).length p.2) =
        some (.bytes [52, 18], ⟨.S16, .LE⟩) :=
  ⟨by decide, change_sign_involution ⟨.S16, .LE⟩ [52, 18] (by decide)⟩

/-- C6: for every supported fixed-point format and every whole-sample
buffer, one `swap_endian` application performs exactly the spec-described
byte transform (`swap_spec`: pairwise swap for 16-bit, exchange of bytes 0
and 2 per 3-byte group for packed 24, full 4-byte reversal for padded 24
and 32-bit), and a second application restores the original buffer. -/
theorem swap_endian_involution (f : Sfmt) (l : List Nat)
    (hs : endian_swappable f.fmt = true)
    (hd : swap_container f.fmt ∣ l.length) :
    swap_endian (.bytes l) l.length f =
        some (.bytes (swap_spec f.fmt l)) ∧
      swap_endian (.bytes (swap_spec f.fmt l)) (swap_spec f.fmt l).length f =
        some (.bytes l) := by
  obtain ⟨ff, fe⟩ := f
  cases ff
  case S16 =>
    refine ⟨by simp [swap_endian, swap_spec, swap_container,
      bswap16_eq_pairRev l], ?_⟩
    have h2 := bswap16_eq_pairRev (pairRev l)
    rw [pairRev_pairRev] at h2
    simp [swap_endian, swap_spec, swap_container, h2]
  case U16 =>
    refine ⟨by simp [swap_endian, swap_spec, swap_container,
      bswap16_eq_pairRev l], ?_⟩
    have h2 := bswap16_eq_pairRev (pairRev l)
    rw [pairRev_pairRev] at h2
    simp [swap_endian, swap_spec, swap_container, h2]
  case S24 =>
    refine ⟨by simp [swap_endian, swap_spec, swap_container,
      bswap32_eq_quadRev l], ?_⟩
    have h2 := bswap32_eq_quadRev (quadRev l)
    rw [quadRev_quadRev] at h2
    simp [swap_endian, swap_spec, swap_container, h2]
  case U24 =>
    refine ⟨by simp [swap_endian, swap_spec, swap_container,
      bswap32_eq_quadRev l], ?_⟩
    have h2 := bswap32_eq_quadRev (quadRev l)
    rw [quadRev_quadRev] at h2
    simp [swap_endian, swap_spec, swap_container, h2]
  case S32 =>
    refine ⟨by simp [swap_endian, swap_spec, swap_container,
      bswap32_eq_quadRev l], ?_⟩
    have h2 := bswap32_eq_quadRev (quadRev l)
    rw [quadRev_quadRev] at h2
    simp [swap_endian, swap_spec, swap_container, h2]
  case U32 =>
    refine ⟨by simp [swap_endian, swap_spec, swap_container,
      bswap32_eq_quadRev l], ?_⟩
    have h2 := bswap32_eq_quadRev (quadRev l)
    rw [quadRev_quadRev] at h2
    simp [swap_endian, swap_spec, swap_container, h2]
  case S24_3 =>
    simp only [swap_container] at hd
    refine ⟨by simp [swap_endian, swap_spec, swap_container,
      bswap24_eq_tripRev l hd], ?_⟩
    have hd2 : 3 ∣ (tripRev l).length := by
      rw [tripRev_length]
      exact hd
    have h2 := bswap24_eq_tripRev (tripRev l) hd2
    rw [tripRev_tripRev] at h2
    simp [swap_endian, swap_spec, swap_container, h2]
  case U24_3 =>
    simp only [swap_container] at hd
    refine ⟨by simp [swap_endian, swap_spec, swap_container,
      bswap24_eq_tripRev l hd], ?_⟩
    have hd2 : 3 ∣ (tripRev l).length := by
      rw [tripRev_length]
      exact hd
    have h2 := bswap24_eq_tripRev (tripRev l) hd2
    rw [tripRev_tripRev] at h2
    simp [swap_endian, swap_spec, swap_container, h2]
  all_goals simp [endian_swappable] at hs

/-- C6 witness: a two-sample packed 24-bit buffer swaps to the described
transform and back. -/
theorem swap_endian_involution_witness :
    (endian_swappable (Sfmt.mk .S24_3 .LE).fmt = true ∧
      swap_container (Sfmt.mk .S24_3 .LE).fmt ∣
        ([1, 2, 3, 4, 5, 6] : List Nat).length) ∧
      (swap_endian (.bytes [1, 2, 3, 4, 5, 6])
          ([1, 2, 3, 4, 5, 6] : List Nat).length ⟨.S24_3, .LE⟩ =
          some (.bytes (swap_spec (Sfmt.mk .S24_3 .LE).fmt [1, 2, 3, 4, 5, 6])) ∧
        swap_endian
          (.bytes (swap_spec (Sfmt.mk .S24_3 .LE).fmt [1, 2, 3, 4, 5, 6]))
          (swap_spec (Sfmt.mk .S24_3 .LE).fmt [1, 2, 3, 4, 5, 6]).length
          ⟨.S24_3, .LE⟩ = some (.bytes [1, 2, 3, 4, 5, 6])) :=
  ⟨⟨by decide, by decide⟩,
    swap_endian_involution ⟨.S24_3, .LE⟩ [1, 2, 3, 4, 5, 6]
      (by decide) (by decide)⟩

/-- C7: for every sample format and every frame-aligned mono buffer,
`mono_to_stereo` returns the spec-described duplication: its byte length is
exactly twice the input's, and every output frame is the corresponding
input frame repeated twice (`L == R == input`, byte for byte). -/
theorem mono_to_stereo_duplicates (f : Sfmt) (l : List Nat)
    (hd : sfmt_Bps f.fmt ∣ l.length) :
    mono_to_stereo (.bytes l) l.length f =
        some (.bytes (dupSpec (sfmt_Bps f.fmt) l)) ∧
      (dupSpec (sfmt_Bps f.fmt) l).length = 2 * l.length ∧
      ∀ j : Nat,
        ((dupSpec (sfmt_Bps f.fmt) l).drop (j * (2 * sfmt_Bps f.fmt))).take
            (2 * sfmt_Bps f.fmt) =
          (l.drop (j * sfmt_Bps f.fmt)).take (sfmt_Bps f.fmt) ++
            (l.drop (j * sfmt_Bps f.fmt)).take (sfmt_Bps f.fmt) := by
  have hk := sfmt_Bps_pos f.fmt
  refine ⟨?_, dupSpec_length _ _ hk hd, fun j => dupSpec_frame _ hk _ hd j⟩
  simp [mono_to_stereo, mono_dup_eq_dupSpec _ _ hk hd]

/-- C7 witness: two 16-bit mono samples duplicate into both channels. -/
theorem mono_to_stereo_duplicates_witness :
    (sfmt_Bps (Sfmt.mk .S16 .LE).fmt ∣ ([1, 2, 3, 4] : List Nat).length) ∧
      mono_to_stereo (.bytes [1, 2, 3, 4]) ([1, 2, 3, 4] : List Nat).length
        ⟨.S16, .LE⟩ =
        some (.bytes (dupSpec (sfmt_Bps (Sfmt.mk .S16 .LE).fmt) [1, 2, 3, 4])) :=
  ⟨by decide, (mono_to_stereo_duplicates ⟨.S16, .LE⟩ [1, 2, 3, 4] (by decide)).1⟩

/-- C8: the packed 24-bit fixed-to-float path is claimed to divide each
sample's (recentered) value by `width-max + 1` with the result in `[-1, 1)`.
But `s24_3_to_float` reads all three bytes through an `int8_t` pointer, so
the low and middle bytes are sign-extended before being combined: the
sample `[0x80 0x80 0x80]` (true 24-bit value `-8355712`, normalized
`-8355712 / 2^23 ≈ -0.9961`, inside `[-1, 1)` — third and fourth
conjuncts) is converted to `(-128 + 256·(-128) + 65536·(-128)) / 2^23 =
-8421504 / 2^23 ≈ -1.0039`, strictly below `-1` (first and second
conjuncts). -/
theorem s24_3_to_float_sign_extension :
    fixed_to_float [128, 128, 128] 3 ⟨.S24_3, .LE⟩ =
        some ([⟨-8421504, 8388608⟩], 4) ∧
      Frac.blt ⟨-8421504, 8388608⟩ (Frac.ofInt (-1)) = true ∧
      toSigned 24 (128 + 256 * 128 + 65536 * 128) = -8355712 ∧
      Frac.blt ⟨-8355712, 8388608⟩ (Frac.ofInt (-1)) = false := by
  decide

/-- C9: whenever a `resample_sound` call completes, the resulting
carry-over length is a multiple of the channel count, and the carry buffer
exists (is non-NULL) exactly when that length is nonzero. -/
theorem resample_sound_carry_invariant (conv : AudioConversion)
    (st : CarryState) (buf : List Frac) (samples nch : Nat)
    (oracle : List (Nat × Nat)) (out : List Frac) (n : Nat)
    (st' : CarryState) (hch : nch ≠ 0)
    (h : resample_sound conv st buf samples nch oracle = some (out, n, st')) :
    st'.resample_buf_nsamples % nch = 0 ∧
      (st'.resample_buf.isSome ↔ st'.resample_buf_nsamples ≠ 0) := by
  unfold resample_sound at h
  split at h
  · simp at h
  · dsimp only at h
    split at h
    · split at h
      · simp at h
      · next p frames acc heq =>
          split at h
          · next hf =>
              simp at h
              obtain ⟨-, -, hst⟩ := h
              subst hst
              refine ⟨Nat.mul_mod_left _ _, ?_⟩
              simp
              exact ⟨hf, hch⟩
          · simp at h
            obtain ⟨-, -, hst⟩ := h
            subst hst
            simp
    · simp at h

/-- C9 witness: a resampling call that consumes everything leaves an empty,
absent carry buffer. -/
theorem resample_sound_carry_invariant_witness :
    ((2 : Nat) ≠ 0 ∧
      resample_sound convC9 stC0 (List.replicate 4 (Frac.ofInt 0)) 4 2
        [(2, 2)] = some (List.replicate 4 (Frac.ofInt 0), 4, ⟨none, 0⟩)) ∧
      ((⟨none, 0⟩ : CarryState).resample_buf_nsamples % 2 = 0 ∧
        ((⟨none, 0⟩ : CarryState).resample_buf.isSome ↔
          (⟨none, 0⟩ : CarryState).resample_buf_nsamples ≠ 0)) :=
  ⟨⟨by decide, by decide⟩,
    resample_sound_carry_invariant convC9 stC0
      (List.replicate 4 (Frac.ofInt 0)) 4 2 [(2, 2)]
      (List.replicate 4 (Frac.ofInt 0)) 4 ⟨none, 0⟩ (by decide) (by decide)⟩

/-- C10: `swap_endian` returns the buffer unchanged for every float-flagged
format — whatever its endianness tag — and for both 8-bit formats, on both
byte-typed and float-typed buffers and for any byte count. -/
theorem swap_endian_float_8bit_identity (e : SfmtEndian) (b : SndBuf)
    (size : Nat) :
    swap_endian b size ⟨.FLOAT, e⟩ = some b ∧
      swap_endian b size ⟨.S8, e⟩ = some b ∧
      swap_endian b size ⟨.U8, e⟩ = some b := by
  refine ⟨?_, ?_, ?_⟩ <;> simp [swap_endian]
